import Mathlib

/-!
Verification of the listener-acquisition subsystem of a minimal Go HTTP
server (`main.go`).  The development shallowly embeds the program:

* the Go standard library `net/url.Parse` (the fragment of its behaviour
  exercised by `parseListenAddr`) is modelled byte-faithfully on `List Char`;
* `parseListenAddr`, `parseConfig`, `(*config).listeners` and the relevant
  decision logic of `main` are translated directly from the source;
* external effects (process id, `net.FileListener`, `net.Listen`, file
  close, `os.Unsetenv`) are oracles collected in a `Sys` record, and the
  stateful functions additionally return an event trace so that claims
  about closing / rollback can be stated.
-/

/-! ### Byte-level character classes (Go operates on bytes; all inputs the
    claims touch are ASCII, where Lean `Char`s and Go bytes coincide). -/

def isAlphaGo (c : Char) : Bool :=
  (65 ≤ c.toNat && c.toNat ≤ 90) || (97 ≤ c.toNat && c.toNat ≤ 122)

def isDigitGo (c : Char) : Bool :=
  48 ≤ c.toNat && c.toNat ≤ 57

def isHexGo (c : Char) : Bool :=
  isDigitGo c || (97 ≤ c.toNat && c.toNat ≤ 102) || (65 ≤ c.toNat && c.toNat ≤ 70)

def unhexGo (c : Char) : Nat :=
  if isDigitGo c then c.toNat - 48
  else if 97 ≤ c.toNat && c.toNat ≤ 102 then c.toNat - 97 + 10
  else if 65 ≤ c.toNat && c.toNat ≤ 70 then c.toNat - 65 + 10
  else 0

/-- Go `stringContainsCTLByte`: a byte below 0x20 or equal to 0x7f. -/
def isCTL (c : Char) : Bool := c.toNat < 32 || c.toNat == 127

def containsCTL (s : String) : Bool := s.data.any isCTL

/-! ### Small string utilities mirroring the `strings` package. -/

/-- Go `strings.Cut` at the first occurrence of a one-byte separator:
    returns (before, after, found). -/
def cutChar (sep : Char) : List Char → List Char × List Char × Bool
  | [] => ([], [], false)
  | c :: rest =>
    if c == sep then ([], rest, true)
    else
      let r := cutChar sep rest
      (c :: r.1, r.2.1, r.2.2)

/-- Split at the LAST occurrence of `sep` (Go `strings.LastIndex` based
    slicing): `some (before, after)` with `s = before ++ sep :: after`. -/
def cutLastChar (sep : Char) : List Char → Option (List Char × List Char)
  | [] => none
  | c :: rest =>
    match cutLastChar sep rest with
    | some (b, a) => some (c :: b, a)
    | none => if c == sep then some ([], rest) else none

/-- Index of the first occurrence of `sep` (Go `strings.Index` for a
    one-byte separator). -/
def idxChar (sep : Char) : List Char → Option Nat
  | [] => none
  | c :: rest => if c == sep then some 0 else (idxChar sep rest).map (· + 1)

/-- Index of the first occurrence of the three-byte sequence `%25`
    (Go `strings.Index(host, "%25")`). -/
def idx25 : List Char → Option Nat
  | '%' :: '2' :: '5' :: _ => some 0
  | _ :: rest => (idx25 rest).map (· + 1)
  | [] => none

def containsChar (sep : Char) (s : List Char) : Bool := s.any (· == sep)

def startsSlash : List Char → Bool
  | '/' :: _ => true
  | _ => false

def startsSlash2 : List Char → Bool
  | '/' :: '/' :: _ => true
  | _ => false

def startsSlash3 : List Char → Bool
  | '/' :: '/' :: '/' :: _ => true
  | _ => false

def endsQuestion (s : List Char) : Bool :=
  match s.getLast? with
  | some c => c == '?'
  | none => false

/-- ASCII lowering; scheme strings only ever hold ASCII letters, digits,
    `+`, `-`, `.`, on which Go `strings.ToLower` acts exactly like this. -/
def lowerChar (c : Char) : Char :=
  if 65 ≤ c.toNat && c.toNat ≤ 90 then Char.ofNat (c.toNat + 32) else c

def lowerStr (s : String) : String := String.mk (s.data.map lowerChar)

/-! ### Model of `net/url` (Go standard library), `Parse` entry point. -/

/-- Escape modes of `net/url` that `Parse` reaches. -/
inductive EncMode
  | path
  | host
  | zone
  | fragment
  | userPassword
deriving DecidableEq

/-- Go `shouldEscape(c, encodeHost)` on a byte value: `false` exactly for
    alphanumerics, the host-specific allowed set, and `-`, `_`, `.`, `~`. -/
def shouldEscapeHost (c : Nat) : Bool :=
  if (97 ≤ c && c ≤ 122) || (65 ≤ c && c ≤ 90) || (48 ≤ c && c ≤ 57) then false
  else if c == 33 || c == 36 || c == 38 || c == 39 || c == 40 || c == 41 ||
          c == 42 || c == 43 || c == 44 || c == 59 || c == 61 || c == 58 ||
          c == 91 || c == 93 || c == 60 || c == 62 || c == 34 then false
  else if c == 45 || c == 95 || c == 46 || c == 126 then false
  else true

/-- Go `unescape(s, mode)` restricted to the modes reached from `Parse`;
    percent-decodes, validating escapes and (in host/zone mode) raw bytes. -/
def unescapeGo (mode : EncMode) : List Char → Except String (List Char)
  | [] => .ok []
  | c :: rest =>
    if c == '%' then
      match rest with
      | a :: b :: rest2 =>
        if isHexGo a && isHexGo b then
          if mode == EncMode.host && unhexGo a < 8 && !(a == '2' && b == '5') then
            .error "invalid URL escape"
          else
            let v := unhexGo a * 16 + unhexGo b
            if mode == EncMode.zone && !(a == '2' && b == '5') && v != 32 &&
                shouldEscapeHost v then
              .error "invalid URL escape"
            else
              match unescapeGo mode rest2 with
              | .error e => .error e
              | .ok out => .ok (Char.ofNat v :: out)
        else .error "invalid URL escape"
      | _ => .error "invalid URL escape"
    else if (mode == EncMode.host || mode == EncMode.zone) && c.toNat < 128 &&
        shouldEscapeHost c.toNat then
      .error "invalid character in host name"
    else
      match unescapeGo mode rest with
      | .error e => .error e
      | .ok out => .ok (c :: out)

/-- Go `getScheme`: splits a leading `scheme:`; bails out (no scheme, whole
    input returned) on the first character that cannot extend a scheme. -/
def getSchemeAux (raw : List Char) : List Char → List Char → Except String (String × List Char)
  | [], _ => .ok ("", raw)
  | c :: rest, acc =>
    if isAlphaGo c then getSchemeAux raw rest (acc ++ [c])
    else if isDigitGo c || c == '+' || c == '-' || c == '.' then
      if acc.isEmpty then .ok ("", raw) else getSchemeAux raw rest (acc ++ [c])
    else if c == ':' then
      if acc.isEmpty then .error "missing protocol scheme"
      else .ok (String.mk acc, rest)
    else .ok ("", raw)

def getSchemeGo (raw : List Char) : Except String (String × List Char) :=
  getSchemeAux raw raw []

/-- Go `validOptionalPort`. -/
def validOptionalPort : List Char → Bool
  | [] => true
  | c :: rest => c == ':' && rest.all isDigitGo

/-- Go `validUserinfo` membership test for one byte. -/
def validUserinfoChar (c : Nat) : Bool :=
  (65 ≤ c && c ≤ 90) || (97 ≤ c && c ≤ 122) || (48 ≤ c && c ≤ 57) ||
  c == 45 || c == 46 || c == 95 || c == 58 || c == 126 || c == 33 ||
  c == 36 || c == 38 || c == 39 || c == 40 || c == 41 || c == 42 ||
  c == 43 || c == 44 || c == 59 || c == 61 || c == 37 || c == 64

def validUserinfoGo (s : List Char) : Bool := s.all (fun c => validUserinfoChar c.toNat)

/-- Go `parseHost`: bracketed IPv6 form (with optional `%25` zone) or plain
    host, validating an optional trailing `:port` and host-mode escapes. -/
def parseHostGo (host : List Char) : Except String String :=
  match host with
  | '[' :: _ =>
    match cutLastChar ']' host with
    | none => .error "missing close bracket in host"
    | some (before, after) =>
      let i := before.length
      if !validOptionalPort after then .error "invalid port after host"
      else
        match idx25 (host.take i) with
        | some zone =>
          match unescapeGo .host (host.take zone) with
          | .error e => .error e
          | .ok h1 =>
            match unescapeGo .zone ((host.take i).drop zone) with
            | .error e => .error e
            | .ok h2 =>
              match unescapeGo .host (host.drop i) with
              | .error e => .error e
              | .ok h3 => .ok (String.mk (h1 ++ h2 ++ h3))
        | none =>
          match unescapeGo .host host with
          | .error e => .error e
          | .ok h => .ok (String.mk h)
  | _ =>
    match cutLastChar ':' host with
    | some (_, after) =>
      if !validOptionalPort (':' :: after) then .error "invalid port after host"
      else
        match unescapeGo .host host with
        | .error e => .error e
        | .ok h => .ok (String.mk h)
    | none =>
      match unescapeGo .host host with
      | .error e => .error e
      | .ok h => .ok (String.mk h)

/-- Go `parseAuthority`: optional userinfo before the last `@`, then host. -/
def parseAuthorityGo (authority : List Char) : Except String (Option String × String) :=
  match cutLastChar '@' authority with
  | none =>
    match parseHostGo authority with
    | .error e => .error e
    | .ok host => .ok (none, host)
  | some (userinfo, hostPart) =>
    match parseHostGo hostPart with
    | .error e => .error e
    | .ok host =>
      if !validUserinfoGo userinfo then .error "net/url: invalid userinfo"
      else
        let cu := cutChar ':' userinfo
        if cu.2.2 then
          match unescapeGo .userPassword cu.1 with
          | .error e => .error e
          | .ok u =>
            match unescapeGo .userPassword cu.2.1 with
            | .error e => .error e
            | .ok p => .ok (some (String.mk u ++ ":" ++ String.mk p), host)
        else
          match unescapeGo .userPassword userinfo with
          | .error e => .error e
          | .ok u => .ok (some (String.mk u), host)

/-- The fields of Go `url.URL` that `Parse` populates on the paths reached
    from `parseListenAddr` (`RawPath`/`RawFragment` bookkeeping omitted:
    it never feeds back into `Scheme`/`Host`/`Path`). -/
structure URL where
  scheme : String := ""
  opaquePart : String := ""
  user : Option String := none
  host : String := ""
  path : String := ""
  rawQuery : String := ""
  forceQuery : Bool := false
  fragment : String := ""
deriving DecidableEq, Repr

/-- Go `net/url.parse(rawURL, viaRequest := false)`. -/
def parseNoFrag (rawURL : String) : Except String URL :=
  if containsCTL rawURL then .error "net/url: invalid control character in URL"
  else if rawURL == "*" then .ok { path := "*" }
  else
    match getSchemeGo rawURL.data with
    | .error e => .error e
    | .ok (scheme0, rest0) =>
      let scheme := lowerStr scheme0
      let cutQ := cutChar '?' rest0
      let rest1 := if endsQuestion rest0 && !containsChar '?' rest0.dropLast then
          rest0.dropLast else cutQ.1
      let rawQuery := if endsQuestion rest0 && !containsChar '?' rest0.dropLast then
          "" else String.mk cutQ.2.1
      let forceQuery := endsQuestion rest0 && !containsChar '?' rest0.dropLast
      if !startsSlash rest1 then
        if scheme != "" then
          .ok { scheme, opaquePart := String.mk rest1, rawQuery, forceQuery }
        else
          if containsChar ':' (cutChar '/' rest1).1 then
            .error "first path segment in URL cannot contain colon"
          else
            match unescapeGo .path rest1 with
            | .error e => .error e
            | .ok p => .ok { scheme, path := String.mk p, rawQuery, forceQuery }
      else
        if (scheme != "" || !startsSlash3 rest1) && startsSlash2 rest1 then
          let after := rest1.drop 2
          let authority := match idxChar '/' after with
            | some i => after.take i
            | none => after
          let rest2 := match idxChar '/' after with
            | some i => after.drop i
            | none => []
          match parseAuthorityGo authority with
          | .error e => .error e
          | .ok (user, host) =>
            match unescapeGo .path rest2 with
            | .error e => .error e
            | .ok p => .ok { scheme, user, host, path := String.mk p, rawQuery, forceQuery }
        else
          match unescapeGo .path rest1 with
          | .error e => .error e
          | .ok p => .ok { scheme, path := String.mk p, rawQuery, forceQuery }

/-- Go `net/url.Parse`: cut the fragment, parse, reattach the fragment. -/
def urlParse (rawURL : String) : Except String URL :=
  let cutF := cutChar '#' rawURL.data
  match parseNoFrag (String.mk cutF.1) with
  | .error e => .error e
  | .ok url =>
    if cutF.2.1.isEmpty then .ok url
    else
      match unescapeGo .fragment cutF.2.1 with
      | .error e => .error e
      | .ok f => .ok { url with fragment := String.mk f }

/-! ### `parseListenAddr` (main.go lines 24-45). -/

def parseListenAddr (addr : String) : Except String (String × String) :=
  match urlParse addr with
  | .error e => .error ("invalid address format: " ++ e)
  | .ok u =>
    if u.scheme == "unix" then
      let path := if u.host != "" then u.host ++ u.path else u.path
      if path == "" then .error "unix socket path cannot be empty"
      else .ok ("unix", path)
    else if u.scheme == "" then .ok ("tcp", addr)
    else .error ("unsupported scheme " ++ u.scheme)

/-! ### `strconv.Atoi` and `strings.Split(s, ":")`. -/

/-- Go `strconv.Atoi` (base 10, 64-bit int): optional sign, then one or
    more ASCII digits; out-of-range values are rejected. -/
def goAtoi (s : String) : Except String Int :=
  match s.data with
  | [] => .error "invalid syntax"
  | c :: rest =>
    let neg := c == '-'
    let digits := if c == '-' || c == '+' then rest else c :: rest
    if digits.isEmpty then .error "invalid syntax"
    else if digits.all isDigitGo then
      let v : Nat := digits.foldl (fun acc d => acc * 10 + (d.toNat - 48)) 0
      if neg then
        if v ≤ 2 ^ 63 then .ok (-(v : Int)) else .error "value out of range"
      else
        if v < 2 ^ 63 then .ok (v : Int) else .error "value out of range"
    else .error "invalid syntax"

/-- Go `strings.Split(s, ":")`: splits on every colon; never empty. -/
def splitColonAux : List Char → List Char → List String
  | [], acc => [String.mk acc.reverse]
  | c :: rest, acc =>
    if c == ':' then String.mk acc.reverse :: splitColonAux rest []
    else splitColonAux rest (c :: acc)

def splitColon (s : String) : List String := splitColonAux s.data []

/-! ### Process environment and system oracles. -/

/-- The slice of the process environment the program touches: the three
    socket-activation variables.  `none` = unset, `some v` = set to `v`
    (possibly the empty string). -/
structure EnvState where
  listenPid : Option String := none
  listenFds : Option String := none
  listenFdnames : Option String := none
deriving DecidableEq, Repr

/-- Go `os.Getenv`: the empty string when the variable is unset. -/
def EnvState.getv (e : EnvState) (n : String) : String :=
  if n == "LISTEN_PID" then e.listenPid.getD ""
  else if n == "LISTEN_FDS" then e.listenFds.getD ""
  else if n == "LISTEN_FDNAMES" then e.listenFdnames.getD ""
  else ""

/-- Go `os.Unsetenv` (when it succeeds). -/
def EnvState.unsetv (e : EnvState) (n : String) : EnvState :=
  if n == "LISTEN_PID" then { e with listenPid := none }
  else if n == "LISTEN_FDS" then { e with listenFds := none }
  else if n == "LISTEN_FDNAMES" then { e with listenFdnames := none }
  else e

/-- Oracles for everything the operating system decides:
    `pid` is `os.Getpid()`; `unsetOk n` whether `os.Unsetenv(n)` succeeds;
    `fileListenerOk fd` whether `net.FileListener` can wrap descriptor `fd`;
    `fileCloseOk fd` whether the temporary `os.File` for `fd` closes
    cleanly; `listenOk network address` whether `net.Listen` binds. -/
structure Sys where
  pid : Int
  unsetOk : String → Bool := fun _ => true
  fileListenerOk : Nat → Bool := fun _ => true
  fileCloseOk : Nat → Bool := fun _ => true
  listenOk : String → String → Bool := fun _ _ => true

/-! ### `parseConfig` (main.go lines 54-87). -/

structure Config where
  addresses : List String := []
  listenPid : Int := 0
  listenFds : Int := 0
  listenFdnames : List String := []
deriving DecidableEq, Repr

/-- Environment-access events, to state read/unset frame properties. -/
inductive CfgEv
  | readVar (n : String)
  | unsetVar (n : String)
deriving DecidableEq, Repr

/-- Outcome of `parseConfig`: the result, the final process environment,
    and the trace of environment accesses. -/
structure PCOut where
  res : Except String Config
  env : EnvState
  evs : List CfgEv
deriving Repr

/-- The `LISTEN_PID` block of `parseConfig`. -/
def pcPid (sys : Sys) (env : EnvState) : Except String Int × EnvState × List CfgEv :=
  let v := env.getv "LISTEN_PID"
  let evs := [CfgEv.readVar "LISTEN_PID"]
  if v == "" then (.ok 0, env, evs)
  else
    match goAtoi v with
    | .error e => (.error ("invalid LISTEN_PID: " ++ e), env, evs)
    | .ok n =>
      if sys.unsetOk "LISTEN_PID" then
        (.ok n, env.unsetv "LISTEN_PID", evs ++ [CfgEv.unsetVar "LISTEN_PID"])
      else (.error "failed to unset LISTEN_PID", env, evs)

/-- The `LISTEN_FDS` block of `parseConfig`. -/
def pcFds (sys : Sys) (env : EnvState) : Except String Int × EnvState × List CfgEv :=
  let v := env.getv "LISTEN_FDS"
  let evs := [CfgEv.readVar "LISTEN_FDS"]
  if v == "" then (.ok 0, env, evs)
  else
    match goAtoi v with
    | .error e => (.error ("invalid LISTEN_FDS: " ++ e), env, evs)
    | .ok n =>
      if sys.unsetOk "LISTEN_FDS" then
        (.ok n, env.unsetv "LISTEN_FDS", evs ++ [CfgEv.unsetVar "LISTEN_FDS"])
      else (.error "failed to unset LISTEN_FDS", env, evs)

/-- The `LISTEN_FDNAMES` block of `parseConfig`. -/
def pcNames (sys : Sys) (env : EnvState) : Except String (List String) × EnvState × List CfgEv :=
  let v := env.getv "LISTEN_FDNAMES"
  let evs := [CfgEv.readVar "LISTEN_FDNAMES"]
  if v == "" then (.ok [], env, evs)
  else
    if sys.unsetOk "LISTEN_FDNAMES" then
      (.ok (splitColon v), env.unsetv "LISTEN_FDNAMES", evs ++ [CfgEv.unsetVar "LISTEN_FDNAMES"])
    else (.error "failed to unset LISTEN_FDNAMES", env, evs)

/-- `parseConfig` (main.go lines 54-87); the already-collected `-listen`
    flag values are passed in as `args` (flag parsing is external). -/
def parseConfig (sys : Sys) (env0 : EnvState) (args : List String) : PCOut :=
  match pcPid sys env0 with
  | (.error e, env1, evs1) => ⟨.error e, env1, evs1⟩
  | (.ok pid, env1, evs1) =>
    match pcFds sys env1 with
    | (.error e, env2, evs2) => ⟨.error e, env2, evs1 ++ evs2⟩
    | (.ok fds, env2, evs2) =>
      match pcNames sys env2 with
      | (.error e, env3, evs3) => ⟨.error e, env3, evs1 ++ evs2 ++ evs3⟩
      | (.ok names, env3, evs3) =>
        ⟨.ok { addresses := args, listenPid := pid, listenFds := fds,
               listenFdnames := names }, env3, evs1 ++ evs2 ++ evs3⟩

/-! ### `(*config).listeners` (main.go lines 89-139). -/

def listenFdsStart : Nat := 3

/-- An acquired listener: either imported from an inherited descriptor
    (with the name given to `os.NewFile`) or freshly bound. -/
inductive Listener
  | imported (fd : Nat) (name : String)
  | bound (network : String) (address : String)
deriving DecidableEq, Repr

/-- Listener-lifecycle events emitted by the model of `listeners()`. -/
inductive LEv
  | closeOnExec (fd : Nat)
  | created (l : Listener)
  | closed (l : Listener)
deriving DecidableEq, Repr

/-- The deferred rollback of `listeners()`: close every element of the
    accumulated slice, in slice order. -/
def closesOf (acc : List Listener) : List LEv := acc.map LEv.closed

/-- The name chosen for descriptor slot `i` (main.go lines 107-110). -/
def goName (c : Config) (i : Nat) : String :=
  match c.listenFdnames[i]? with
  | some nm => if nm.length > 0 then nm else "LISTEN_FD_" ++ toString (listenFdsStart + i)
  | none => "LISTEN_FD_" ++ toString (listenFdsStart + i)

/-- The socket-activation import loop (main.go lines 104-119): slot index
    `i`, `fuel` remaining iterations; on a file-close failure the deferred
    rollback closes everything accumulated so far. -/
def importLoop (sys : Sys) (c : Config) :
    Nat → Nat → List Listener → List LEv → Except String (List Listener) × List LEv
  | _, 0, acc, evs => (.ok acc, evs)
  | i, fuel + 1, acc, evs =>
    let fd := listenFdsStart + i
    let evs1 := evs ++ [LEv.closeOnExec fd]
    if sys.fileListenerOk fd then
      let l := Listener.imported fd (goName c i)
      let acc1 := acc ++ [l]
      let evs2 := evs1 ++ [LEv.created l]
      if sys.fileCloseOk fd then
        importLoop sys c (i + 1) fuel acc1 evs2
      else
        (.error ("failed to close file " ++ goName c i), evs2 ++ closesOf acc1)
    else
      importLoop sys c (i + 1) fuel acc evs1

/-- The activation-import phase of `listeners()` (main.go lines 103-120):
    a no-op unless the configured pid is non-zero and matches `Getpid`. -/
def importPhase (sys : Sys) (c : Config) : Except String (List Listener) × List LEv :=
  if c.listenPid != 0 && c.listenPid == sys.pid then
    importLoop sys c 0 c.listenFds.toNat [] []
  else (.ok [], [])

/-- The explicit-address bind loop (main.go lines 122-136); a parse or
    bind failure triggers the deferred rollback of the whole slice. -/
def bindLoop (sys : Sys) :
    List String → List Listener → List LEv → Except String (List Listener) × List LEv
  | [], acc, evs => (.ok acc, evs)
  | addr :: rest, acc, evs =>
    match parseListenAddr addr with
    | .error e => (.error ("invalid listen address " ++ addr ++ ": " ++ e), evs ++ closesOf acc)
    | .ok na =>
      if sys.listenOk na.1 na.2 then
        let l := Listener.bound na.1 na.2
        bindLoop sys rest (acc ++ [l]) (evs ++ [LEv.created l])
      else
        (.error ("failed to listen on " ++ addr), evs ++ closesOf acc)

/-- `(*config).listeners` (main.go lines 91-139). -/
def listenersRun (sys : Sys) (c : Config) : Except String (List Listener) × List LEv :=
  match importPhase sys c with
  | (.error e, evs) => (.error e, evs)
  | (.ok acc, evs) => bindLoop sys c.addresses acc evs

/-! ### Specification-side functions used to state order/concatenation
    claims (derived, compared against the embedded loops by theorem). -/

/-- Listener produced for descriptor slot `i` when the wrap succeeds. -/
def importItem (sys : Sys) (c : Config) (i : Nat) : Option Listener :=
  if sys.fileListenerOk (listenFdsStart + i) then
    some (Listener.imported (listenFdsStart + i) (goName c i))
  else none

/-- The listeners the import phase yields when no file-close fails. -/
def importedListeners (sys : Sys) (c : Config) : List Listener :=
  if c.listenPid != 0 && c.listenPid == sys.pid then
    (List.range c.listenFds.toNat).filterMap (importItem sys c)
  else []

/-- The bind phase in isolation: all addresses parsed and bound in
    configuration order, failing on the first bad one. -/
def bindPure (sys : Sys) : List String → Except String (List Listener)
  | [] => .ok []
  | addr :: rest =>
    match parseListenAddr addr with
    | .error e => .error ("invalid listen address " ++ addr ++ ": " ++ e)
    | .ok na =>
      if sys.listenOk na.1 na.2 then
        match bindPure sys rest with
        | .error e => .error e
        | .ok ls => .ok (Listener.bound na.1 na.2 :: ls)
      else .error ("failed to listen on " ++ addr)

/-- Listeners created (appended to the slice) during a run. -/
def createdOf (evs : List LEv) : List Listener :=
  evs.filterMap fun e =>
    match e with
    | LEv.created l => some l
    | _ => none

/-- Listeners closed during a run. -/
def closedOf (evs : List LEv) : List Listener :=
  evs.filterMap fun e =>
    match e with
    | LEv.closed l => some l
    | _ => none

/-! ### The HTTP handler (main.go lines 151-156) and `main`. -/

structure HttpRequest where
  method : String
  path : String
  remoteAddr : String

/-- Go `http.ResponseWriter` state: the first `Write` with no prior
    `WriteHeader` sends status 200. -/
structure RespWriter where
  status : Option Nat := none
  body : String := ""

def RespWriter.write (w : RespWriter) (s : String) : RespWriter :=
  { status := some (w.status.getD 200), body := w.body ++ s }

inductive LogEv
  | request (method : String) (path : String) (remote : String)
  | warnWriteFailed
deriving DecidableEq, Repr

/-- The fixed handler: logs method/path/remote, then writes the body. -/
def handler (r : HttpRequest) : RespWriter × List LogEv :=
  let logs := [LogEv.request r.method r.path r.remoteAddr]
  let w := RespWriter.write {} "Hello, World!"
  (w, logs)

/-- The decision structure of `main` (main.go lines 141-192) up to the
    point where serving tasks would be spawned. -/
inductive MainResult
  | exit (code : Nat)
  | serve (ls : List Listener)
deriving DecidableEq, Repr

def mainModel (sys : Sys) (env : EnvState) (args : List String) : MainResult :=
  match (parseConfig sys env args).res with
  | .error _ => .exit 1
  | .ok c =>
    match (listenersRun sys c).1 with
    | .error _ => .exit 1
    | .ok ls => if ls.length == 0 then .exit 1 else .serve ls

/-! ### Helper lemmas on event extraction. -/

theorem createdOf_append (xs ys : List LEv) :
    createdOf (xs ++ ys) = createdOf xs ++ createdOf ys := by
  simp [createdOf, List.filterMap_append]

theorem closedOf_append (xs ys : List LEv) :
    closedOf (xs ++ ys) = closedOf xs ++ closedOf ys := by
  simp [closedOf, List.filterMap_append]

theorem createdOf_closesOf (acc : List Listener) : createdOf (closesOf acc) = [] := by
  induction acc with
  | nil => rfl
  | cons l rest ih => simp [closesOf, createdOf]

theorem closedOf_closesOf (acc : List Listener) : closedOf (closesOf acc) = acc := by
  induction acc with
  | nil => rfl
  | cons l rest ih => simpa [closesOf, closedOf] using ih

theorem empty_append_str (s : String) : "" ++ s = s := rfl

/-! ### Claim C1 (code bug): the documented schemeless TCP forms are
    rejected by `parseListenAddr`. -/

/-- C1: the spec (and the in-code flag help text) promise that schemeless
    addresses such as `:8080` and `127.0.0.1:80` are accepted and returned
    unchanged with transport "tcp"; in fact `url.Parse` rejects both, so
    `parseListenAddr` fails on exactly the documented example inputs. -/
theorem parseListenAddr_rejects_documented_tcp_forms :
    parseListenAddr ":8080" =
        .error "invalid address format: missing protocol scheme" ∧
    parseListenAddr "127.0.0.1:80" =
        .error "invalid address format: first path segment in URL cannot contain colon" ∧
    parseListenAddr "0.0.0.0:8080" =
        .error "invalid address format: first path segment in URL cannot contain colon" := by
  refine ⟨rfl, rfl, rfl⟩

/-! ### Claim C7: unix-scheme addresses. -/

/-- C7: whenever the address parses as a URI with scheme `unix`,
    `parseListenAddr` returns transport "unix" with the host prefixed onto
    the path when that concatenation is non-empty, and fails with the
    empty-path error otherwise. -/
theorem parseListenAddr_unix_scheme (addr : String) (u : URL)
    (h : urlParse addr = .ok u) (hs : u.scheme = "unix") :
    (u.host ++ u.path ≠ "" →
      parseListenAddr addr = .ok ("unix", u.host ++ u.path)) ∧
    (u.host ++ u.path = "" →
      parseListenAddr addr = .error "unix socket path cannot be empty") := by
  have hpath : (if u.host != "" then u.host ++ u.path else u.path) = u.host ++ u.path := by
    by_cases hh : u.host = ""
    · simp [hh]
    · simp [hh]
  constructor
  · intro hne
    unfold parseListenAddr
    rw [h]
    simp only [hs, beq_self_eq_true, if_pos]
    rw [hpath]
    simp [hne]
  · intro he
    unfold parseListenAddr
    rw [h]
    simp only [hs, beq_self_eq_true, if_pos]
    rw [hpath]
    simp [he]

/-- Witness for C7 at concrete inputs of both branches. -/
theorem parseListenAddr_unix_scheme_witness :
    parseListenAddr "unix://a/b" = .ok ("unix", "a/b") ∧
    parseListenAddr "unix://" = .error "unix socket path cannot be empty" := by
  constructor
  · exact (parseListenAddr_unix_scheme "unix://a/b"
      { scheme := "unix", host := "a", path := "/b" } rfl rfl).1 (by decide)
  · exact (parseListenAddr_unix_scheme "unix://"
      { scheme := "unix" } rfl rfl).2 rfl

/-! ### Rollback invariants of the acquisition loops. -/
/-! ### Rollback invariants of the acquisition loops. -/

theorem closedOf_nil : closedOf [] = [] := rfl

theorem createdOf_nil : createdOf [] = [] := rfl

theorem closedOf_cexec (fd : Nat) (t : List LEv) :
    closedOf (LEv.closeOnExec fd :: t) = closedOf t := rfl

theorem closedOf_cre (l : Listener) (t : List LEv) :
    closedOf (LEv.created l :: t) = closedOf t := rfl

theorem closedOf_cl (l : Listener) (t : List LEv) :
    closedOf (LEv.closed l :: t) = l :: closedOf t := rfl

theorem createdOf_cexec (fd : Nat) (t : List LEv) :
    createdOf (LEv.closeOnExec fd :: t) = createdOf t := rfl

theorem createdOf_cre (l : Listener) (t : List LEv) :
    createdOf (LEv.created l :: t) = l :: createdOf t := rfl

theorem createdOf_cl (l : Listener) (t : List LEv) :
    createdOf (LEv.closed l :: t) = createdOf t := rfl

theorem importLoop_trace (sys : Sys) (c : Config) :
    ∀ (fuel i : Nat) (acc : List Listener) (evs : List LEv),
      closedOf evs = [] → createdOf evs = acc →
      (∀ e evs2, importLoop sys c i fuel acc evs = (.error e, evs2) →
        closedOf evs2 = createdOf evs2) ∧
      (∀ acc2 evs2, importLoop sys c i fuel acc evs = (.ok acc2, evs2) →
        closedOf evs2 = [] ∧ createdOf evs2 = acc2) := by
  intro fuel
  induction fuel with
  | zero =>
    intro i acc evs hcl hcr
    constructor
    · intro e evs2 h
      simp [importLoop] at h
    · intro acc2 evs2 h
      simp [importLoop] at h
      obtain ⟨h1, h2⟩ := h
      subst h1; subst h2
      exact ⟨hcl, hcr⟩
  | succ fuel ih =>
    intro i acc evs hcl hcr
    by_cases hw : sys.fileListenerOk (listenFdsStart + i) = true
    · by_cases hc : sys.fileCloseOk (listenFdsStart + i) = true
      · have hrec := ih (i + 1)
          (acc ++ [Listener.imported (listenFdsStart + i) (goName c i)])
          ((evs ++ [LEv.closeOnExec (listenFdsStart + i)]) ++
            [LEv.created (Listener.imported (listenFdsStart + i) (goName c i))])
          (by simp [closedOf_append, createdOf_append, closedOf_closesOf, createdOf_closesOf,
            closedOf_cexec, closedOf_cre, closedOf_cl, createdOf_cexec, createdOf_cre,
            createdOf_cl, closedOf_nil, createdOf_nil, hcl, hcr])
          (by simp [closedOf_append, createdOf_append, closedOf_closesOf, createdOf_closesOf,
            closedOf_cexec, closedOf_cre, closedOf_cl, createdOf_cexec, createdOf_cre,
            createdOf_cl, closedOf_nil, createdOf_nil, hcl, hcr])
        constructor
        · intro e evs2 h
          simp only [importLoop, hw, hc, if_true] at h
          exact hrec.1 e evs2 h
        · intro acc2 evs2 h
          simp only [importLoop, hw, hc, if_true] at h
          exact hrec.2 acc2 evs2 h
      · constructor
        · intro e evs2 h
          simp [importLoop, hw, hc] at h
          obtain ⟨h1, h2⟩ := h
          subst h2
          simp [closedOf_append, createdOf_append, closedOf_closesOf, createdOf_closesOf,
            closedOf_cexec, closedOf_cre, closedOf_cl, createdOf_cexec, createdOf_cre,
            createdOf_cl, closedOf_nil, createdOf_nil, hcl, hcr]
        · intro acc2 evs2 h
          simp [importLoop, hw, hc] at h
    · have hrec := ih (i + 1) acc (evs ++ [LEv.closeOnExec (listenFdsStart + i)])
        (by simp [closedOf_append, createdOf_append, closedOf_closesOf, createdOf_closesOf,
            closedOf_cexec, closedOf_cre, closedOf_cl, createdOf_cexec, createdOf_cre,
            createdOf_cl, closedOf_nil, createdOf_nil, hcl, hcr])
        (by simp [closedOf_append, createdOf_append, closedOf_closesOf, createdOf_closesOf,
            closedOf_cexec, closedOf_cre, closedOf_cl, createdOf_cexec, createdOf_cre,
            createdOf_cl, closedOf_nil, createdOf_nil, hcl, hcr])
      constructor
      · intro e evs2 h
        simp only [importLoop, hw, if_false, Bool.false_eq_true] at h
        exact hrec.1 e evs2 h
      · intro acc2 evs2 h
        simp only [importLoop, hw, if_false, Bool.false_eq_true] at h
        exact hrec.2 acc2 evs2 h

theorem bindLoop_trace (sys : Sys) :
    ∀ (addrs : List String) (acc : List Listener) (evs : List LEv),
      closedOf evs = [] → createdOf evs = acc →
      (∀ e evs2, bindLoop sys addrs acc evs = (.error e, evs2) →
        closedOf evs2 = createdOf evs2) ∧
      (∀ acc2 evs2, bindLoop sys addrs acc evs = (.ok acc2, evs2) →
        closedOf evs2 = [] ∧ createdOf evs2 = acc2) := by
  intro addrs
  induction addrs with
  | nil =>
    intro acc evs hcl hcr
    constructor
    · intro e evs2 h
      simp [bindLoop] at h
    · intro acc2 evs2 h
      simp [bindLoop] at h
      obtain ⟨h1, h2⟩ := h
      subst h1; subst h2
      exact ⟨hcl, hcr⟩
  | cons addr rest ih =>
    intro acc evs hcl hcr
    rcases hpa : parseListenAddr addr with e0 | na
    · constructor
      · intro e evs2 h
        simp [bindLoop, hpa] at h
        obtain ⟨h1, h2⟩ := h
        subst h2
        simp [closedOf_append, createdOf_append, closedOf_closesOf, createdOf_closesOf,
          closedOf_cexec, closedOf_cre, closedOf_cl, createdOf_cexec, createdOf_cre,
          createdOf_cl, closedOf_nil, createdOf_nil, hcl, hcr]
      · intro acc2 evs2 h
        simp [bindLoop, hpa] at h
    · by_cases hl : sys.listenOk na.1 na.2 = true
      · have hrec := ih (acc ++ [Listener.bound na.1 na.2])
          (evs ++ [LEv.created (Listener.bound na.1 na.2)])
          (by simp [closedOf_append, closedOf_cre, closedOf_nil, hcl])
          (by simp [createdOf_append, createdOf_cre, createdOf_nil, hcr])
        constructor
        · intro e evs2 h
          simp only [bindLoop, hpa, hl, if_true] at h
          exact hrec.1 e evs2 h
        · intro acc2 evs2 h
          simp only [bindLoop, hpa, hl, if_true] at h
          exact hrec.2 acc2 evs2 h
      · constructor
        · intro e evs2 h
          simp [bindLoop, hpa, hl] at h
          obtain ⟨h1, h2⟩ := h
          subst h2
          simp [closedOf_append, createdOf_append, closedOf_closesOf, createdOf_closesOf,
            closedOf_cexec, closedOf_cre, closedOf_cl, createdOf_cexec, createdOf_cre,
            createdOf_cl, closedOf_nil, createdOf_nil, hcl, hcr]
        · intro acc2 evs2 h
          simp [bindLoop, hpa, hl] at h

theorem importPhase_trace (sys : Sys) (c : Config) :
    (∀ e evs, importPhase sys c = (.error e, evs) → closedOf evs = createdOf evs) ∧
    (∀ acc evs, importPhase sys c = (.ok acc, evs) →
      closedOf evs = [] ∧ createdOf evs = acc) := by
  unfold importPhase
  by_cases hcond : (c.listenPid != 0 && c.listenPid == sys.pid) = true
  · simp only [hcond, if_true]
    exact ⟨fun e evs h => (importLoop_trace sys c c.listenFds.toNat 0 [] [] rfl rfl).1 e evs h,
           fun acc evs h => (importLoop_trace sys c c.listenFds.toNat 0 [] [] rfl rfl).2 acc evs h⟩
  · simp only [hcond, if_false, Bool.false_eq_true]
    constructor
    · intro e evs h
      simp at h
    · intro acc evs h
      simp at h
      obtain ⟨h1, h2⟩ := h
      subst h1; subst h2
      exact ⟨rfl, rfl⟩

/-! ### Claim C2: all-or-nothing acquisition. -/

/-- C2: whenever `listeners()` returns an error - from activation import,
    address parsing, or binding - the set of listeners closed during the
    call equals (in order) the set of listeners created during it, so no
    listener created in that call remains open. -/
theorem listeners_error_closes_all_created (sys : Sys) (c : Config) (e : String)
    (evs : List LEv) (h : listenersRun sys c = (.error e, evs)) :
    closedOf evs = createdOf evs := by
  unfold listenersRun at h
  rcases hip : importPhase sys c with ⟨r, evs0⟩
  rw [hip] at h
  rcases r with e0 | acc
  · simp at h
    obtain ⟨h1, h2⟩ := h
    subst h1; subst h2
    exact (importPhase_trace sys c).1 e0 evs0 hip
  · have hpre := (importPhase_trace sys c).2 acc evs0 hip
    simp only at h
    exact (bindLoop_trace sys c.addresses acc evs0 hpre.1 hpre.2).1 e evs h

/-- Witness for C2: with one bindable address followed by one that fails
    to bind, the single created listener is closed again. -/
theorem listeners_error_closes_all_created_witness :
    closedOf [LEv.created (Listener.bound "tcp" "ok1"),
              LEv.closed (Listener.bound "tcp" "ok1")] =
    createdOf [LEv.created (Listener.bound "tcp" "ok1"),
               LEv.closed (Listener.bound "tcp" "ok1")] :=
  listeners_error_closes_all_created
    { pid := 1, listenOk := fun _ a => a != "bad" }
    { addresses := ["ok1", "bad"] }
    "failed to listen on bad" _ rfl

/-! ### Value characterization of successful runs. -/

theorem importLoop_ok_val (sys : Sys) (c : Config) :
    ∀ (fuel i : Nat) (acc : List Listener) (evs : List LEv)
      (acc2 : List Listener) (evs2 : List LEv),
      importLoop sys c i fuel acc evs = (.ok acc2, evs2) →
      acc2 = acc ++ (List.range fuel).filterMap (fun j => importItem sys c (i + j)) := by
  intro fuel
  induction fuel with
  | zero =>
    intro i acc evs acc2 evs2 h
    simp [importLoop] at h
    simp [h.1]
  | succ fuel ih =>
    intro i acc evs acc2 evs2 h
    have hshift : (fun j => importItem sys c (i + Nat.succ j)) =
        (fun j => importItem sys c ((i + 1) + j)) := by
      funext j
      congr 1
      omega
    by_cases hw : sys.fileListenerOk (listenFdsStart + i) = true
    · by_cases hc : sys.fileCloseOk (listenFdsStart + i) = true
      · simp only [importLoop, hw, hc, if_true] at h
        have := ih (i + 1)
          (acc ++ [Listener.imported (listenFdsStart + i) (goName c i)])
          ((evs ++ [LEv.closeOnExec (listenFdsStart + i)]) ++
            [LEv.created (Listener.imported (listenFdsStart + i) (goName c i))])
          acc2 evs2 h
        rw [this, List.range_succ_eq_map, List.filterMap_cons, List.filterMap_map]
        have h0 : importItem sys c (i + 0) =
            some (Listener.imported (listenFdsStart + i) (goName c i)) := by
          simp [importItem, hw]
        rw [h0]
        rw [show ((fun j => importItem sys c (i + j)) ∘ Nat.succ) =
          (fun j => importItem sys c (i + Nat.succ j)) from rfl, hshift]
        simp
      · simp [importLoop, hw, hc] at h
    · simp only [importLoop, hw, if_false, Bool.false_eq_true] at h
      have := ih (i + 1) acc (evs ++ [LEv.closeOnExec (listenFdsStart + i)]) acc2 evs2 h
      rw [this, List.range_succ_eq_map, List.filterMap_cons, List.filterMap_map]
      have h0 : importItem sys c (i + 0) = none := by
        simp [importItem, hw]
      rw [h0]
      rw [show ((fun j => importItem sys c (i + j)) ∘ Nat.succ) =
        (fun j => importItem sys c (i + Nat.succ j)) from rfl, hshift]

theorem importLoop_ok_of_closeOk (sys : Sys) (c : Config)
    (hc : ∀ fd, sys.fileCloseOk fd = true) :
    ∀ (fuel i : Nat) (acc : List Listener) (evs : List LEv),
      ∃ acc2 evs2, importLoop sys c i fuel acc evs = (.ok acc2, evs2) := by
  intro fuel
  induction fuel with
  | zero =>
    intro i acc evs
    exact ⟨acc, evs, by simp [importLoop]⟩
  | succ fuel ih =>
    intro i acc evs
    by_cases hw : sys.fileListenerOk (listenFdsStart + i) = true
    · obtain ⟨acc2, evs2, hrun⟩ := ih (i + 1)
        (acc ++ [Listener.imported (listenFdsStart + i) (goName c i)])
        ((evs ++ [LEv.closeOnExec (listenFdsStart + i)]) ++
          [LEv.created (Listener.imported (listenFdsStart + i) (goName c i))])
      exact ⟨acc2, evs2, by simp only [importLoop, hw, hc, if_true]; exact hrun⟩
    · obtain ⟨acc2, evs2, hrun⟩ := ih (i + 1) acc
        (evs ++ [LEv.closeOnExec (listenFdsStart + i)])
      exact ⟨acc2, evs2, by
        simp only [importLoop, hw, if_false, Bool.false_eq_true]
        exact hrun⟩

theorem importPhase_ok_val (sys : Sys) (c : Config) (acc : List Listener)
    (evs : List LEv) (h : importPhase sys c = (.ok acc, evs)) :
    acc = importedListeners sys c := by
  unfold importPhase at h
  unfold importedListeners
  by_cases hcond : (c.listenPid != 0 && c.listenPid == sys.pid) = true
  · simp only [hcond, if_true] at h ⊢
    have := importLoop_ok_val sys c c.listenFds.toNat 0 [] [] acc evs h
    rw [this]
    simp [show (fun j => importItem sys c (0 + j)) = importItem sys c from
      funext fun j => by rw [Nat.zero_add]]
  · simp only [hcond, if_false, Bool.false_eq_true] at h ⊢
    simp at h
    exact h.1

/-! ### Claim C3: honored activation imports named listeners in slot order. -/

/-- C3: when activation is honored (configured pid non-zero and equal to
    the current process id) and the temporary descriptor files close
    cleanly, the import phase yields exactly the listeners of slots
    3 .. 3+count-1 in ascending order, each wrapped listener carrying the
    corresponding non-empty entry of the names sequence, or the
    synthesized `LISTEN_FD_<fd>` name otherwise (`goName`). -/
theorem importPhase_honored_yields_named_listeners (sys : Sys) (c : Config)
    (hp : c.listenPid ≠ 0) (he : c.listenPid = sys.pid)
    (hc : ∀ fd, sys.fileCloseOk fd = true) :
    (importPhase sys c).1 =
      .ok ((List.range c.listenFds.toNat).filterMap (importItem sys c)) := by
  have hcond : (c.listenPid != 0 && c.listenPid == sys.pid) = true := by
    rw [Bool.and_eq_true, bne_iff_ne, beq_iff_eq]
    exact ⟨hp, he⟩
  obtain ⟨acc2, evs2, hrun⟩ :=
    importLoop_ok_of_closeOk sys c hc c.listenFds.toNat 0 [] []
  have hval := importLoop_ok_val sys c c.listenFds.toNat 0 [] [] acc2 evs2 hrun
  unfold importPhase
  simp only [hcond, if_true, hrun]
  rw [hval]
  simp [show (fun j => importItem sys c (0 + j)) = importItem sys c from
    funext fun j => by rw [Nat.zero_add]]

/-- Witness for C3: count 2, names "a","b", both descriptors wrappable:
    exactly the two listeners named "a" and "b", in descriptor order. -/
theorem importPhase_honored_yields_named_listeners_witness :
    (importPhase { pid := 5 }
        { listenPid := 5, listenFds := 2, listenFdnames := ["a", "b"] }).1 =
      .ok [Listener.imported 3 "a", Listener.imported 4 "b"] := by
  rw [importPhase_honored_yields_named_listeners { pid := 5 }
    { listenPid := 5, listenFds := 2, listenFdnames := ["a", "b"] }
    (by decide) rfl (fun fd => rfl)]
  rfl

/-! ### Claim C4: activation import is a no-op without a matching pid. -/

/-- C4: if the configured owning pid is 0 or differs from the actual
    process id, the import phase returns no listeners, no error, and
    performs no descriptor operation at all, regardless of the configured
    count and names. -/
theorem importPhase_noop_pid (sys : Sys) (c : Config)
    (h : c.listenPid = 0 ∨ c.listenPid ≠ sys.pid) :
    importPhase sys c = (.ok [], []) := by
  unfold importPhase
  have hcond : (c.listenPid != 0 && c.listenPid == sys.pid) = false := by
    rcases h with h | h
    · simp [h]
    · simp [bne_iff_ne, beq_iff_eq, h]
  simp [hcond]

/-- Witness for C4: pid 0 with a positive descriptor count and names. -/
theorem importPhase_noop_pid_witness :
    importPhase { pid := 9 }
      { listenPid := 0, listenFds := 3, listenFdnames := ["x"] } = (.ok [], []) :=
  importPhase_noop_pid _ _ (Or.inl rfl)

/-! ### Claim C10: non-positive descriptor count means zero iterations. -/

/-- C10: with honored activation but a descriptor count that is zero or
    negative, the import loop runs no iterations: no listeners, no
    descriptor events, no error. -/
theorem importPhase_noop_nonpositive_count (sys : Sys) (c : Config)
    (_hp : c.listenPid ≠ 0) (_he : c.listenPid = sys.pid)
    (hf : c.listenFds ≤ 0) :
    importPhase sys c = (.ok [], []) := by
  unfold importPhase
  have h0 : c.listenFds.toNat = 0 := Int.toNat_eq_zero.mpr hf
  by_cases hcond : (c.listenPid != 0 && c.listenPid == sys.pid) = true
  · simp only [hcond, if_true, h0]
    simp [importLoop]
  · simp [hcond]

/-- Witness for C10: `LISTEN_FDS="-1"` is accepted by configuration
    parsing, and the resulting import phase does nothing. -/
theorem importPhase_noop_nonpositive_count_witness :
    (parseConfig { pid := 7 }
        { listenPid := some "7", listenFds := some "-1", listenFdnames := none } []).res =
      .ok { addresses := [], listenPid := 7, listenFds := -1, listenFdnames := [] } ∧
    importPhase { pid := 7 }
      { addresses := [], listenPid := 7, listenFds := -1, listenFdnames := [] } =
      (.ok [], []) :=
  ⟨rfl, importPhase_noop_nonpositive_count { pid := 7 }
    { addresses := [], listenPid := 7, listenFds := -1, listenFdnames := [] }
    (by decide) rfl (by decide)⟩

theorem bindLoop_ok_val (sys : Sys) :
    ∀ (addrs : List String) (acc : List Listener) (evs : List LEv)
      (acc2 : List Listener) (evs2 : List LEv),
      bindLoop sys addrs acc evs = (.ok acc2, evs2) →
      ∃ bs, bindPure sys addrs = .ok bs ∧ acc2 = acc ++ bs := by
  intro addrs
  induction addrs with
  | nil =>
    intro acc evs acc2 evs2 h
    simp [bindLoop] at h
    exact ⟨[], rfl, by simp [h.1]⟩
  | cons addr rest ih =>
    intro acc evs acc2 evs2 h
    rcases hpa : parseListenAddr addr with e0 | na
    · simp [bindLoop, hpa] at h
    · by_cases hl : sys.listenOk na.1 na.2 = true
      · simp only [bindLoop, hpa, hl, if_true] at h
        obtain ⟨bs, hbs, hacc⟩ := ih (acc ++ [Listener.bound na.1 na.2])
          (evs ++ [LEv.created (Listener.bound na.1 na.2)]) acc2 evs2 h
        refine ⟨Listener.bound na.1 na.2 :: bs, ?_, ?_⟩
        · simp only [bindPure, hpa, hl, if_true, hbs]
        · rw [hacc]
          simp
      · simp [bindLoop, hpa, hl] at h

/-! ### Claim C6: result is imports then binds, each group in order. -/

/-- C6: on success, `listeners()` returns exactly the activation-derived
    listeners (ascending descriptor order, `importedListeners`) followed by
    the listeners bound from the configured addresses in configuration
    order (`bindPure`). -/
theorem listeners_ok_imported_then_bound (sys : Sys) (c : Config)
    (ls : List Listener) (evs : List LEv)
    (h : listenersRun sys c = (.ok ls, evs)) :
    ∃ bs, bindPure sys c.addresses = .ok bs ∧
      ls = importedListeners sys c ++ bs := by
  unfold listenersRun at h
  rcases hip : importPhase sys c with ⟨r, evs0⟩
  rw [hip] at h
  rcases r with e0 | acc
  · simp at h
  · simp only at h
    obtain ⟨bs, hbs, hacc⟩ := bindLoop_ok_val sys c.addresses acc evs0 ls evs h
    exact ⟨bs, hbs, by rw [hacc, importPhase_ok_val sys c acc evs0 hip]⟩

/-- Witness for C6: one imported listener and one bound listener, in that
    order. -/
theorem listeners_ok_imported_then_bound_witness :
    ∃ bs, bindPure { pid := 5 } ["svc"] = .ok bs ∧
      [Listener.imported 3 "n", Listener.bound "tcp" "svc"] =
        importedListeners { pid := 5 }
          { addresses := ["svc"], listenPid := 5, listenFds := 1,
            listenFdnames := ["n"] } ++ bs :=
  listeners_ok_imported_then_bound { pid := 5 }
    { addresses := ["svc"], listenPid := 5, listenFds := 1, listenFdnames := ["n"] }
    [Listener.imported 3 "n", Listener.bound "tcp" "svc"] _ rfl

/-! ### Claim C8: empty listener set aborts before serving. -/

/-- C8: if configuration parsing succeeds and listener acquisition
    succeeds with an empty set, `main` exits with code 1 and never reaches
    the serving stage. -/
theorem main_exits_one_on_empty_listener_set (sys : Sys) (env : EnvState)
    (args : List String) (c : Config)
    (h1 : (parseConfig sys env args).res = .ok c)
    (h2 : (listenersRun sys c).1 = .ok []) :
    mainModel sys env args = .exit 1 := by
  unfold mainModel
  rw [h1]
  simp [h2]

/-- Witness for C8: empty environment, no flags: acquisition succeeds with
    zero listeners and the process exits 1. -/
theorem main_exits_one_on_empty_listener_set_witness :
    mainModel { pid := 1 } {} [] = .exit 1 :=
  main_exits_one_on_empty_listener_set { pid := 1 } {} [] {} rfl rfl

/-! ### Claim C9: the fixed handler. -/

/-- C9: for every request, whatever its method and path, the handler
    first logs the method, path and remote address, and writes the body
    `Hello, World!` without an explicit status, which sends status 200. -/
theorem handler_responds_200_hello_and_logs (r : HttpRequest) :
    (handler r).1.status = some 200 ∧
    (handler r).1.body = "Hello, World!" ∧
    (handler r).2 = [LogEv.request r.method r.path r.remoteAddr] :=
  ⟨rfl, rfl, rfl⟩

/-! ### Claim C5 (corrected): environment consumption in `parseConfig`. -/

/-- The process environment after a successful `parseConfig`: a variable
    is unset exactly when it was set to a non-empty value; an unset or
    empty-valued variable is left untouched. -/
def envAfter (env : EnvState) : EnvState :=
  { listenPid := if env.listenPid.getD "" == "" then env.listenPid else none,
    listenFds := if env.listenFds.getD "" == "" then env.listenFds else none,
    listenFdnames := if env.listenFdnames.getD "" == "" then env.listenFdnames else none }

theorem pcPid_ok_shape (sys : Sys) (env : EnvState) (n : Int) (env1 : EnvState)
    (evs1 : List CfgEv) (h : pcPid sys env = (.ok n, env1, evs1)) :
    env1 = { env with listenPid :=
        if env.listenPid.getD "" == "" then env.listenPid else none } ∧
    evs1 = CfgEv.readVar "LISTEN_PID" ::
      (if env.listenPid.getD "" == "" then [] else [CfgEv.unsetVar "LISTEN_PID"]) := by
  have hg : env.getv "LISTEN_PID" = env.listenPid.getD "" := rfl
  by_cases hv : (env.listenPid.getD "" == "") = true
  · simp only [pcPid, hg, hv, if_true] at h
    cases h
    refine ⟨?_, ?_⟩
    · simp [hv]
    · simp [hv]
  · simp only [pcPid, hg, hv, if_false, Bool.false_eq_true] at h
    rcases ha : goAtoi (env.listenPid.getD "") with e | m
    · rw [ha] at h
      simp at h
    · rw [ha] at h
      by_cases hu : sys.unsetOk "LISTEN_PID" = true
      · simp only [hu, if_true] at h
        cases h
        refine ⟨?_, ?_⟩
        · simp [hv, EnvState.unsetv]
        · simp [hv]
      · simp [hu] at h

theorem pcFds_ok_shape (sys : Sys) (env : EnvState) (n : Int) (env1 : EnvState)
    (evs1 : List CfgEv) (h : pcFds sys env = (.ok n, env1, evs1)) :
    env1 = { env with listenFds :=
        if env.listenFds.getD "" == "" then env.listenFds else none } ∧
    evs1 = CfgEv.readVar "LISTEN_FDS" ::
      (if env.listenFds.getD "" == "" then [] else [CfgEv.unsetVar "LISTEN_FDS"]) := by
  have hg : env.getv "LISTEN_FDS" = env.listenFds.getD "" := rfl
  by_cases hv : (env.listenFds.getD "" == "") = true
  · simp only [pcFds, hg, hv, if_true] at h
    cases h
    refine ⟨?_, ?_⟩
    · simp [hv]
    · simp [hv]
  · simp only [pcFds, hg, hv, if_false, Bool.false_eq_true] at h
    rcases ha : goAtoi (env.listenFds.getD "") with e | m
    · rw [ha] at h
      simp at h
    · rw [ha] at h
      by_cases hu : sys.unsetOk "LISTEN_FDS" = true
      · simp only [hu, if_true] at h
        cases h
        refine ⟨?_, ?_⟩
        · simp [hv, EnvState.unsetv]
        · simp [hv]
      · simp [hu] at h

theorem pcNames_ok_shape (sys : Sys) (env : EnvState) (ns : List String)
    (env1 : EnvState) (evs1 : List CfgEv)
    (h : pcNames sys env = (.ok ns, env1, evs1)) :
    env1 = { env with listenFdnames :=
        if env.listenFdnames.getD "" == "" then env.listenFdnames else none } ∧
    evs1 = CfgEv.readVar "LISTEN_FDNAMES" ::
      (if env.listenFdnames.getD "" == "" then []
       else [CfgEv.unsetVar "LISTEN_FDNAMES"]) := by
  have hg : env.getv "LISTEN_FDNAMES" = env.listenFdnames.getD "" := rfl
  by_cases hv : (env.listenFdnames.getD "" == "") = true
  · simp only [pcNames, hg, hv, if_true] at h
    cases h
    refine ⟨?_, ?_⟩
    · simp [hv]
    · simp [hv]
  · simp only [pcNames, hg, hv, if_false, Bool.false_eq_true] at h
    by_cases hu : sys.unsetOk "LISTEN_FDNAMES" = true
    · simp only [hu, if_true] at h
      cases h
      refine ⟨?_, ?_⟩
      · simp [hv, EnvState.unsetv]
      · simp [hv]
    · simp [hu] at h

theorem parseConfig_shape (sys : Sys) (env : EnvState) (args : List String)
    (n1 n2 : Int) (ns : List String) (env1 env2 env3 : EnvState)
    (evs1 evs2 evs3 : List CfgEv)
    (hp : pcPid sys env = (.ok n1, env1, evs1))
    (hf : pcFds sys env1 = (.ok n2, env2, evs2))
    (hn : pcNames sys env2 = (.ok ns, env3, evs3)) :
    parseConfig sys env args =
      ⟨.ok { addresses := args, listenPid := n1, listenFds := n2,
             listenFdnames := ns }, env3, evs1 ++ evs2 ++ evs3⟩ := by
  unfold parseConfig
  rw [hp]
  dsimp only
  rw [hf]
  dsimp only
  rw [hn]

/-- `true` exactly on `Except.ok` results. -/
def exceptOk {ε α : Type} : Except ε α → Bool
  | .ok _ => true
  | .error _ => false

/-- On a successful `parseConfig` run each activation variable is read
    exactly once and the final environment is `envAfter env`: a variable
    is cleared exactly when its value was non-empty. -/
theorem parseConfig_ok_env_counts (sys : Sys) (env : EnvState)
    (args : List String) (c : Config)
    (h : (parseConfig sys env args).res = .ok c) :
    (parseConfig sys env args).env = envAfter env ∧
    (parseConfig sys env args).evs.count (CfgEv.readVar "LISTEN_PID") = 1 ∧
    (parseConfig sys env args).evs.count (CfgEv.readVar "LISTEN_FDS") = 1 ∧
    (parseConfig sys env args).evs.count (CfgEv.readVar "LISTEN_FDNAMES") = 1 := by
  have hres := h
  unfold parseConfig at hres
  rcases hp : pcPid sys env with ⟨r1, env1, evs1⟩
  rw [hp] at hres
  rcases r1 with e1 | n1
  · simp at hres
  · dsimp only at hres
    rcases hf : pcFds sys env1 with ⟨r2, env2, evs2⟩
    rw [hf] at hres
    rcases r2 with e2 | n2
    · simp at hres
    · dsimp only at hres
      rcases hn : pcNames sys env2 with ⟨r3, env3, evs3⟩
      rw [hn] at hres
      rcases r3 with e3 | ns3
      · simp at hres
      · rw [parseConfig_shape sys env args n1 n2 ns3 env1 env2 env3
          evs1 evs2 evs3 hp hf hn]
        obtain ⟨henv1, hevs1⟩ := pcPid_ok_shape sys env n1 env1 evs1 hp
        obtain ⟨henv2, hevs2⟩ := pcFds_ok_shape sys env1 n2 env2 evs2 hf
        obtain ⟨henv3, hevs3⟩ := pcNames_ok_shape sys env2 ns3 env3 evs3 hn
        subst henv1
        subst henv2
        subst henv3
        subst hevs1
        subst hevs2
        subst hevs3
        refine ⟨?_, ?_, ?_, ?_⟩
        · simp [envAfter]
        · by_cases b1 : (env.listenPid.getD "" == "") = true <;>
            by_cases b2 : (env.listenFds.getD "" == "") = true <;>
            by_cases b3 : (env.listenFdnames.getD "" == "") = true <;>
            simp [b1, b2, b3, List.count_append, List.count_cons]
        · by_cases b1 : (env.listenPid.getD "" == "") = true <;>
            by_cases b2 : (env.listenFds.getD "" == "") = true <;>
            by_cases b3 : (env.listenFdnames.getD "" == "") = true <;>
            simp [b1, b2, b3, List.count_append, List.count_cons]
        · by_cases b1 : (env.listenPid.getD "" == "") = true <;>
            by_cases b2 : (env.listenFds.getD "" == "") = true <;>
            by_cases b3 : (env.listenFdnames.getD "" == "") = true <;>
            simp [b1, b2, b3, List.count_append, List.count_cons]

/-! ### Full case analyses of the three `parseConfig` stages. -/

theorem pcPid_cases (sys : Sys) (env : EnvState) :
    pcPid sys env = (.ok 0, env, [CfgEv.readVar "LISTEN_PID"]) ∨
    (∃ e, pcPid sys env = (.error e, env, [CfgEv.readVar "LISTEN_PID"])) ∨
    (∃ n, pcPid sys env = (.ok n, { env with listenPid := none },
        [CfgEv.readVar "LISTEN_PID", CfgEv.unsetVar "LISTEN_PID"])) := by
  by_cases hv : (env.getv "LISTEN_PID" == "") = true
  · left
    simp [pcPid, hv]
  · rcases ha : goAtoi (env.getv "LISTEN_PID") with e | n
    · right; left
      exact ⟨"invalid LISTEN_PID: " ++ e, by simp [pcPid, hv, ha]⟩
    · by_cases hu : sys.unsetOk "LISTEN_PID" = true
      · right; right
        exact ⟨n, by simp [pcPid, hv, ha, hu, EnvState.unsetv]⟩
      · right; left
        exact ⟨"failed to unset LISTEN_PID", by simp [pcPid, hv, ha, hu]⟩

theorem pcFds_cases (sys : Sys) (env : EnvState) :
    pcFds sys env = (.ok 0, env, [CfgEv.readVar "LISTEN_FDS"]) ∨
    (∃ e, pcFds sys env = (.error e, env, [CfgEv.readVar "LISTEN_FDS"])) ∨
    (∃ n, pcFds sys env = (.ok n, { env with listenFds := none },
        [CfgEv.readVar "LISTEN_FDS", CfgEv.unsetVar "LISTEN_FDS"])) := by
  by_cases hv : (env.getv "LISTEN_FDS" == "") = true
  · left
    simp [pcFds, hv]
  · rcases ha : goAtoi (env.getv "LISTEN_FDS") with e | n
    · right; left
      exact ⟨"invalid LISTEN_FDS: " ++ e, by simp [pcFds, hv, ha]⟩
    · by_cases hu : sys.unsetOk "LISTEN_FDS" = true
      · right; right
        exact ⟨n, by simp [pcFds, hv, ha, hu, EnvState.unsetv]⟩
      · right; left
        exact ⟨"failed to unset LISTEN_FDS", by simp [pcFds, hv, ha, hu]⟩

theorem pcNames_cases (sys : Sys) (env : EnvState) :
    pcNames sys env = (.ok [], env, [CfgEv.readVar "LISTEN_FDNAMES"]) ∨
    (∃ e, pcNames sys env = (.error e, env, [CfgEv.readVar "LISTEN_FDNAMES"])) ∨
    (∃ ns, pcNames sys env = (.ok ns, { env with listenFdnames := none },
        [CfgEv.readVar "LISTEN_FDNAMES", CfgEv.unsetVar "LISTEN_FDNAMES"])) := by
  by_cases hv : (env.getv "LISTEN_FDNAMES" == "") = true
  · left
    simp [pcNames, hv]
  · by_cases hu : sys.unsetOk "LISTEN_FDNAMES" = true
    · right; right
      exact ⟨splitColon (env.getv "LISTEN_FDNAMES"),
        by simp [pcNames, hv, hu, EnvState.unsetv]⟩
    · right; left
      exact ⟨"failed to unset LISTEN_FDNAMES", by simp [pcNames, hv, hu]⟩

/-! ### Output of `parseConfig` on each early-error path. -/

theorem parseConfig_eq_err1 (sys : Sys) (env : EnvState) (args : List String)
    (e : String) (env1 : EnvState) (evs1 : List CfgEv)
    (hp : pcPid sys env = (.error e, env1, evs1)) :
    parseConfig sys env args = ⟨.error e, env1, evs1⟩ := by
  unfold parseConfig
  rw [hp]

theorem parseConfig_eq_err2 (sys : Sys) (env : EnvState) (args : List String)
    (n1 : Int) (e : String) (env1 env2 : EnvState) (evs1 evs2 : List CfgEv)
    (hp : pcPid sys env = (.ok n1, env1, evs1))
    (hf : pcFds sys env1 = (.error e, env2, evs2)) :
    parseConfig sys env args = ⟨.error e, env2, evs1 ++ evs2⟩ := by
  unfold parseConfig
  rw [hp]
  dsimp only
  rw [hf]

theorem parseConfig_eq_err3 (sys : Sys) (env : EnvState) (args : List String)
    (n1 n2 : Int) (e : String) (env1 env2 env3 : EnvState)
    (evs1 evs2 evs3 : List CfgEv)
    (hp : pcPid sys env = (.ok n1, env1, evs1))
    (hf : pcFds sys env1 = (.ok n2, env2, evs2))
    (hn : pcNames sys env2 = (.error e, env3, evs3)) :
    parseConfig sys env args = ⟨.error e, env3, evs1 ++ evs2 ++ evs3⟩ := by
  unfold parseConfig
  rw [hp]
  dsimp only
  rw [hf]
  dsimp only
  rw [hn]

/-! ### The environment-access trace of every `parseConfig` run. -/

theorem pcPid_evs (sys : Sys) (env : EnvState) :
    (pcPid sys env).2.2 = [CfgEv.readVar "LISTEN_PID"] ∨
    (pcPid sys env).2.2 = [CfgEv.readVar "LISTEN_PID", CfgEv.unsetVar "LISTEN_PID"] := by
  rcases pcPid_cases sys env with h | ⟨e, h⟩ | ⟨n, h⟩ <;> rw [h] <;>
    first
      | exact Or.inl rfl
      | exact Or.inr rfl

theorem pcFds_evs (sys : Sys) (env : EnvState) :
    (pcFds sys env).2.2 = [CfgEv.readVar "LISTEN_FDS"] ∨
    (pcFds sys env).2.2 = [CfgEv.readVar "LISTEN_FDS", CfgEv.unsetVar "LISTEN_FDS"] := by
  rcases pcFds_cases sys env with h | ⟨e, h⟩ | ⟨n, h⟩ <;> rw [h] <;>
    first
      | exact Or.inl rfl
      | exact Or.inr rfl

theorem pcNames_evs (sys : Sys) (env : EnvState) :
    (pcNames sys env).2.2 = [CfgEv.readVar "LISTEN_FDNAMES"] ∨
    (pcNames sys env).2.2 =
      [CfgEv.readVar "LISTEN_FDNAMES", CfgEv.unsetVar "LISTEN_FDNAMES"] := by
  rcases pcNames_cases sys env with h | ⟨e, h⟩ | ⟨ns, h⟩ <;> rw [h] <;>
    first
      | exact Or.inl rfl
      | exact Or.inr rfl

/-- The trace of `parseConfig` is the trace of the stages it reached, in
    stage order: just the pid stage, pid then fds, or all three. -/
theorem parseConfig_evs_eq (sys : Sys) (env : EnvState) (args : List String) :
    (parseConfig sys env args).evs = (pcPid sys env).2.2 ∨
    (parseConfig sys env args).evs =
      (pcPid sys env).2.2 ++ (pcFds sys (pcPid sys env).2.1).2.2 ∨
    (parseConfig sys env args).evs =
      (pcPid sys env).2.2 ++ (pcFds sys (pcPid sys env).2.1).2.2 ++
        (pcNames sys (pcFds sys (pcPid sys env).2.1).2.1).2.2 := by
  rcases hp : pcPid sys env with ⟨r1, env1, evs1⟩
  dsimp only
  rcases r1 with e1 | n1
  · left
    rw [parseConfig_eq_err1 sys env args e1 env1 evs1 hp]
  · rcases hf : pcFds sys env1 with ⟨r2, env2, evs2⟩
    dsimp only
    rcases r2 with e2 | n2
    · right; left
      rw [parseConfig_eq_err2 sys env args n1 e2 env1 env2 evs1 evs2 hp hf]
    · rcases hn : pcNames sys env2 with ⟨r3, env3, evs3⟩
      dsimp only
      rcases r3 with e3 | ns3
      · right; right
        rw [parseConfig_eq_err3 sys env args n1 n2 e3 env1 env2 env3
          evs1 evs2 evs3 hp hf hn]
      · right; right
        rw [parseConfig_shape sys env args n1 n2 ns3 env1 env2 env3
          evs1 evs2 evs3 hp hf hn]

/-- Decomposition of the trace into per-variable blocks: each block is its
    read event alone or the read event immediately followed by its unset
    event, and later blocks are empty when an earlier stage failed. -/
theorem parseConfig_evs_shape (sys : Sys) (env : EnvState) (args : List String) :
    ∃ t1 t2 t3 : List CfgEv,
      (parseConfig sys env args).evs = t1 ++ t2 ++ t3 ∧
      (t1 = [CfgEv.readVar "LISTEN_PID"] ∨
        t1 = [CfgEv.readVar "LISTEN_PID", CfgEv.unsetVar "LISTEN_PID"]) ∧
      (t2 = [] ∨ t2 = [CfgEv.readVar "LISTEN_FDS"] ∨
        t2 = [CfgEv.readVar "LISTEN_FDS", CfgEv.unsetVar "LISTEN_FDS"]) ∧
      (t3 = [] ∨ t3 = [CfgEv.readVar "LISTEN_FDNAMES"] ∨
        t3 = [CfgEv.readVar "LISTEN_FDNAMES", CfgEv.unsetVar "LISTEN_FDNAMES"]) := by
  rcases parseConfig_evs_eq sys env args with h | h | h
  · refine ⟨(pcPid sys env).2.2, [], [], ?_, pcPid_evs sys env, Or.inl rfl, Or.inl rfl⟩
    rw [h]
    simp
  · refine ⟨(pcPid sys env).2.2, (pcFds sys (pcPid sys env).2.1).2.2, [], ?_,
      pcPid_evs sys env, ?_, Or.inl rfl⟩
    · rw [h]
      simp
    · rcases pcFds_evs sys (pcPid sys env).2.1 with h2 | h2
      · exact Or.inr (Or.inl h2)
      · exact Or.inr (Or.inr h2)
  · refine ⟨(pcPid sys env).2.2, (pcFds sys (pcPid sys env).2.1).2.2,
      (pcNames sys (pcFds sys (pcPid sys env).2.1).2.1).2.2, h,
      pcPid_evs sys env, ?_, ?_⟩
    · rcases pcFds_evs sys (pcPid sys env).2.1 with h2 | h2
      · exact Or.inr (Or.inl h2)
      · exact Or.inr (Or.inr h2)
    · rcases pcNames_evs sys (pcFds sys (pcPid sys env).2.1).2.1 with h3 | h3
      · exact Or.inr (Or.inl h3)
      · exact Or.inr (Or.inr h3)

/-- On every run - success or failure - each variable is read at most once. -/
theorem parseConfig_reads_at_most_once (sys : Sys) (env : EnvState)
    (args : List String) :
    (parseConfig sys env args).evs.count (CfgEv.readVar "LISTEN_PID") ≤ 1 ∧
    (parseConfig sys env args).evs.count (CfgEv.readVar "LISTEN_FDS") ≤ 1 ∧
    (parseConfig sys env args).evs.count (CfgEv.readVar "LISTEN_FDNAMES") ≤ 1 := by
  obtain ⟨t1, t2, t3, heq, h1, h2, h3⟩ := parseConfig_evs_shape sys env args
  rw [heq]
  rcases h1 with h1 | h1 <;> rcases h2 with h2 | h2 | h2 <;> rcases h3 with h3 | h3 | h3 <;>
    subst h1 <;> subst h2 <;> subst h3 <;> exact ⟨by decide, by decide, by decide⟩

/-- Whenever a variable is unset during a run, its unset event immediately
    follows its read event in the access trace. -/
theorem parseConfig_unset_follows_read (sys : Sys) (env : EnvState)
    (args : List String) :
    (CfgEv.unsetVar "LISTEN_PID" ∈ (parseConfig sys env args).evs →
      List.IsInfix [CfgEv.readVar "LISTEN_PID", CfgEv.unsetVar "LISTEN_PID"]
        (parseConfig sys env args).evs) ∧
    (CfgEv.unsetVar "LISTEN_FDS" ∈ (parseConfig sys env args).evs →
      List.IsInfix [CfgEv.readVar "LISTEN_FDS", CfgEv.unsetVar "LISTEN_FDS"]
        (parseConfig sys env args).evs) ∧
    (CfgEv.unsetVar "LISTEN_FDNAMES" ∈ (parseConfig sys env args).evs →
      List.IsInfix [CfgEv.readVar "LISTEN_FDNAMES", CfgEv.unsetVar "LISTEN_FDNAMES"]
        (parseConfig sys env args).evs) := by
  obtain ⟨t1, t2, t3, heq, h1, h2, h3⟩ := parseConfig_evs_shape sys env args
  rw [heq]
  rcases h1 with h1 | h1 <;> rcases h2 with h2 | h2 | h2 <;> rcases h3 with h3 | h3 | h3 <;>
    subst h1 <;> subst h2 <;> subst h3 <;> exact ⟨by decide, by decide, by decide⟩

/-- A malformed non-empty `LISTEN_PID` makes `parseConfig` fail with the
    environment untouched (the variable is not unset) and with `LISTEN_FDS`
    and `LISTEN_FDNAMES` never read. -/
theorem parseConfig_malformed_pid (sys : Sys) (env : EnvState)
    (args : List String) (hne : env.listenPid.getD "" ≠ "")
    (hbad : exceptOk (goAtoi (env.listenPid.getD "")) = false) :
    exceptOk (parseConfig sys env args).res = false ∧
    (parseConfig sys env args).env = env ∧
    (parseConfig sys env args).evs = [CfgEv.readVar "LISTEN_PID"] := by
  have hv : (env.getv "LISTEN_PID" == "") = false := by
    have hg : env.getv "LISTEN_PID" = env.listenPid.getD "" := rfl
    rw [hg]
    cases hbe : (env.listenPid.getD "" == "")
    · rfl
    · exact absurd (eq_of_beq hbe) hne
  rcases ha : goAtoi (env.listenPid.getD "") with e | m
  · have ha2 : goAtoi (env.getv "LISTEN_PID") = .error e := ha
    have hp : pcPid sys env =
        (.error ("invalid LISTEN_PID: " ++ e), env, [CfgEv.readVar "LISTEN_PID"]) := by
      simp [pcPid, hv, ha2]
    rw [parseConfig_eq_err1 sys env args _ _ _ hp]
    exact ⟨rfl, rfl, rfl⟩
  · rw [ha] at hbad
    simp [exceptOk] at hbad

/-- After a successful `LISTEN_PID` stage, a malformed non-empty
    `LISTEN_FDS` makes `parseConfig` fail with the environment exactly as
    the pid stage left it (`LISTEN_FDS` is not unset) and with
    `LISTEN_FDNAMES` never read. -/
theorem parseConfig_malformed_fds (sys : Sys) (env : EnvState)
    (args : List String) (hok1 : exceptOk (pcPid sys env).1 = true)
    (hne : env.listenFds.getD "" ≠ "")
    (hbad : exceptOk (goAtoi (env.listenFds.getD "")) = false) :
    exceptOk (parseConfig sys env args).res = false ∧
    (parseConfig sys env args).env = (pcPid sys env).2.1 ∧
    (parseConfig sys env args).evs =
      (pcPid sys env).2.2 ++ [CfgEv.readVar "LISTEN_FDS"] := by
  rcases ha : goAtoi (env.listenFds.getD "") with e2 | m2
  swap
  · rw [ha] at hbad
    simp [exceptOk] at hbad
  rcases pcPid_cases sys env with hp | ⟨e, hp⟩ | ⟨n, hp⟩
  · have hv : (EnvState.getv env "LISTEN_FDS" == "") = false := by
      have hg : EnvState.getv env "LISTEN_FDS" = env.listenFds.getD "" := rfl
      rw [hg]
      cases hbe : (env.listenFds.getD "" == "")
      · rfl
      · exact absurd (eq_of_beq hbe) hne
    have ha2 : goAtoi (EnvState.getv env "LISTEN_FDS") = .error e2 := ha
    have hf : pcFds sys env =
        (.error ("invalid LISTEN_FDS: " ++ e2), env, [CfgEv.readVar "LISTEN_FDS"]) := by
      simp [pcFds, hv, ha2]
    rw [parseConfig_eq_err2 sys env args 0 _ env env _ _ hp hf, hp]
    exact ⟨rfl, rfl, rfl⟩
  · rw [hp] at hok1
    simp [exceptOk] at hok1
  · have hv : (EnvState.getv { env with listenPid := none } "LISTEN_FDS" == "") = false := by
      have hg : EnvState.getv { env with listenPid := none } "LISTEN_FDS" =
          env.listenFds.getD "" := rfl
      rw [hg]
      cases hbe : (env.listenFds.getD "" == "")
      · rfl
      · exact absurd (eq_of_beq hbe) hne
    have ha2 : goAtoi (EnvState.getv { env with listenPid := none } "LISTEN_FDS") =
        .error e2 := ha
    have hf : pcFds sys { env with listenPid := none } =
        (.error ("invalid LISTEN_FDS: " ++ e2), { env with listenPid := none },
          [CfgEv.readVar "LISTEN_FDS"]) := by
      simp [pcFds, hv, ha2]
    rw [parseConfig_eq_err2 sys env args n _ { env with listenPid := none }
      { env with listenPid := none } _ _ hp hf, hp]
    exact ⟨rfl, rfl, rfl⟩

/-! ### Claim C5 (corrected): environment consumption in `parseConfig`. -/

/-- C5 (amended): each activation variable is read at most once on every
    run and exactly once on a successful run; a variable is unset
    immediately after being read (its unset event directly follows its
    read event) exactly when its value is non-empty and its processing
    succeeds, so on success the final environment is `envAfter env`, in
    which an empty-valued variable is left set; and when `LISTEN_PID` (or,
    after a successful pid stage, `LISTEN_FDS`) holds a malformed
    non-empty value, `parseConfig` fails without unsetting that variable
    and without reading or modifying the later ones. -/
theorem parseConfig_env_discipline (sys : Sys) (env : EnvState)
    (args : List String) :
    ((parseConfig sys env args).evs.count (CfgEv.readVar "LISTEN_PID") ≤ 1 ∧
     (parseConfig sys env args).evs.count (CfgEv.readVar "LISTEN_FDS") ≤ 1 ∧
     (parseConfig sys env args).evs.count (CfgEv.readVar "LISTEN_FDNAMES") ≤ 1) ∧
    (exceptOk (parseConfig sys env args).res = true →
      (parseConfig sys env args).env = envAfter env ∧
      (parseConfig sys env args).evs.count (CfgEv.readVar "LISTEN_PID") = 1 ∧
      (parseConfig sys env args).evs.count (CfgEv.readVar "LISTEN_FDS") = 1 ∧
      (parseConfig sys env args).evs.count (CfgEv.readVar "LISTEN_FDNAMES") = 1) ∧
    ((CfgEv.unsetVar "LISTEN_PID" ∈ (parseConfig sys env args).evs →
        List.IsInfix [CfgEv.readVar "LISTEN_PID", CfgEv.unsetVar "LISTEN_PID"]
          (parseConfig sys env args).evs) ∧
     (CfgEv.unsetVar "LISTEN_FDS" ∈ (parseConfig sys env args).evs →
        List.IsInfix [CfgEv.readVar "LISTEN_FDS", CfgEv.unsetVar "LISTEN_FDS"]
          (parseConfig sys env args).evs) ∧
     (CfgEv.unsetVar "LISTEN_FDNAMES" ∈ (parseConfig sys env args).evs →
        List.IsInfix [CfgEv.readVar "LISTEN_FDNAMES", CfgEv.unsetVar "LISTEN_FDNAMES"]
          (parseConfig sys env args).evs)) ∧
    (env.listenPid.getD "" ≠ "" →
      exceptOk (goAtoi (env.listenPid.getD "")) = false →
      exceptOk (parseConfig sys env args).res = false ∧
      (parseConfig sys env args).env = env ∧
      (parseConfig sys env args).evs = [CfgEv.readVar "LISTEN_PID"]) ∧
    (exceptOk (pcPid sys env).1 = true → env.listenFds.getD "" ≠ "" →
      exceptOk (goAtoi (env.listenFds.getD "")) = false →
      exceptOk (parseConfig sys env args).res = false ∧
      (parseConfig sys env args).env = (pcPid sys env).2.1 ∧
      (parseConfig sys env args).evs =
        (pcPid sys env).2.2 ++ [CfgEv.readVar "LISTEN_FDS"]) := by
  refine ⟨parseConfig_reads_at_most_once sys env args, ?_,
    parseConfig_unset_follows_read sys env args,
    fun hne hbad => parseConfig_malformed_pid sys env args hne hbad,
    fun hok1 hne hbad => parseConfig_malformed_fds sys env args hok1 hne hbad⟩
  intro hok
  rcases hres : (parseConfig sys env args).res with e | c
  · rw [hres] at hok
    simp [exceptOk] at hok
  · exact parseConfig_ok_env_counts sys env args c hres

/-- Counterexample to C5 as stated.  First: with `LISTEN_PID` set to the
    empty string, parsing succeeds and the variable is read, but it is NOT
    unset - it is still present (and empty) in the environment afterwards.
    Second: with a malformed `LISTEN_PID` value, parsing fails, the
    variable is read but left set, and `LISTEN_FDS` (set in the
    environment) and `LISTEN_FDNAMES` are never read at all, refuting
    "read exactly once ... when an earlier variable's value is
    malformed". -/
theorem parseConfig_leaves_empty_var_set :
    ((parseConfig { pid := 1 } { listenPid := some "" } []).res =
        .ok { addresses := [], listenPid := 0, listenFds := 0, listenFdnames := [] } ∧
     (parseConfig { pid := 1 } { listenPid := some "" } []).evs =
        [CfgEv.readVar "LISTEN_PID", CfgEv.readVar "LISTEN_FDS",
         CfgEv.readVar "LISTEN_FDNAMES"] ∧
     (parseConfig { pid := 1 } { listenPid := some "" } []).env.listenPid = some "") ∧
    (exceptOk (parseConfig { pid := 1 }
        { listenPid := some "x", listenFds := some "2" } []).res = false ∧
     (parseConfig { pid := 1 } { listenPid := some "x", listenFds := some "2" } []).env =
        { listenPid := some "x", listenFds := some "2" } ∧
     (parseConfig { pid := 1 } { listenPid := some "x", listenFds := some "2" } []).evs =
        [CfgEv.readVar "LISTEN_PID"]) :=
  ⟨⟨rfl, rfl, rfl⟩, rfl, rfl, rfl⟩

/-- Witness for the amended C5: the success clause at an environment with
    all three variables set non-empty, and the malformed-`LISTEN_PID`
    clause at `LISTEN_PID="x"`. -/
theorem parseConfig_env_discipline_witness :
    ((parseConfig { pid := 1 }
        { listenPid := some "7", listenFds := some "1", listenFdnames := some "a" } []).env =
      envAfter { listenPid := some "7", listenFds := some "1", listenFdnames := some "a" } ∧
     (parseConfig { pid := 1 }
        { listenPid := some "7", listenFds := some "1", listenFdnames := some "a" } []).evs.count
       (CfgEv.readVar "LISTEN_PID") = 1 ∧
     (parseConfig { pid := 1 }
        { listenPid := some "7", listenFds := some "1", listenFdnames := some "a" } []).evs.count
       (CfgEv.readVar "LISTEN_FDS") = 1 ∧
     (parseConfig { pid := 1 }
        { listenPid := some "7", listenFds := some "1", listenFdnames := some "a" } []).evs.count
       (CfgEv.readVar "LISTEN_FDNAMES") = 1) ∧
    (exceptOk (parseConfig { pid := 1 }
        { listenPid := some "x", listenFds := some "2" } []).res = false ∧
     (parseConfig { pid := 1 } { listenPid := some "x", listenFds := some "2" } []).env =
        { listenPid := some "x", listenFds := some "2" } ∧
     (parseConfig { pid := 1 } { listenPid := some "x", listenFds := some "2" } []).evs =
        [CfgEv.readVar "LISTEN_PID"]) :=
  ⟨(parseConfig_env_discipline { pid := 1 }
      { listenPid := some "7", listenFds := some "1", listenFdnames := some "a" } []).2.1 rfl,
   (parseConfig_env_discipline { pid := 1 }
      { listenPid := some "x", listenFds := some "2" } []).2.2.2.1 (by decide) rfl⟩
